import Mathlib

/-!
Verification of the tendalyze CSV-to-relational ingestion pipeline
(`etl/ingest_hudl_csv.py`, `etl/ingest_teams_csv.py`).

Python strings are modelled as lists of Unicode code points (`PyStr`); the
string operations the pipeline uses (`str.strip`, `str.lower`, `str.title`,
the `in` substring test, `int(...)`) are embedded below over that
representation, following CPython's documented behaviour on the ASCII
range the pipeline manipulates.

The relational store is modelled by an explicit `Store` value; the second
component returned by `load_hudl_csv` is the committed database state.
The ingestion runs with `autocommit = False` and commits only after the
batch insert, so on any exception the committed state is the original one
(the open transaction is discarded, never committed).
-/

namespace Tendalyze

/-- A Python string: its list of Unicode code points. -/
abbrev PyStr := List Nat

/-- Code points of a Lean string literal, for writing `PyStr` constants. -/
def strLit (s : String) : PyStr := s.data.map Char.toNat

/-- Python `str.isspace` on one code point (ASCII whitespace). -/
def isSpc (c : Nat) : Bool := c = 32 || c = 9 || c = 10 || c = 13 || c = 11 || c = 12

/-- ASCII decimal digit test, as used by `int(...)` parsing. -/
def isDigitCp (c : Nat) : Bool := 48 ≤ c && c ≤ 57

/-- A cased code point (ASCII letter), the word-building class of `str.title`. -/
def isCased (c : Nat) : Bool := (65 ≤ c && c ≤ 90) || (97 ≤ c && c ≤ 122)

/-- Lower-case one code point (ASCII), as `str.lower` does per character. -/
def loC (c : Nat) : Nat := if 65 ≤ c ∧ c ≤ 90 then c + 32 else c

/-- Upper-case one code point (ASCII), as `str.upper`/titlecasing does. -/
def upC (c : Nat) : Nat := if 97 ≤ c ∧ c ≤ 122 then c - 32 else c

/-- Python `str.lower`. -/
def pyLower (s : PyStr) : PyStr := s.map loC

/-- Drop leading whitespace (the left half of `str.strip`). -/
def stripL (s : PyStr) : PyStr := s.dropWhile isSpc

/-- Drop trailing whitespace (the right half of `str.strip`). -/
def stripR (s : PyStr) : PyStr := (s.reverse.dropWhile isSpc).reverse

/-- Python `str.strip()`: remove leading and trailing whitespace. -/
def pyStrip (s : PyStr) : PyStr := stripR (stripL s)

/-- Worker for `str.title`: the flag records whether the previous
character was cased, which decides upper- vs lower-casing. -/
def titleAux : Bool → PyStr → PyStr
  | _, [] => []
  | prev, c :: t =>
    (if isCased c then (if prev then loC c else upC c) else c) :: titleAux (isCased c) t

/-- Python `str.title()`: first character of each run of cased characters
upper-cased, the rest of the run lower-cased, other characters unchanged. -/
def pyTitle (s : PyStr) : PyStr := titleAux false s

/-- Is `p` an initial segment of `l`? -/
def isPre : PyStr → PyStr → Bool
  | [], _ => true
  | _ :: _, [] => false
  | a :: as, b :: bs => a = b && isPre as bs

/-- Python's `needle in hay` substring test. -/
def substr (needle : PyStr) : PyStr → Bool
  | [] => needle.isEmpty
  | c :: t => isPre needle (c :: t) || substr needle t

/-- Python `s or None`: `None` for the empty string, else the string. -/
def orNone (s : PyStr) : Option PyStr := if s = [] then none else some s

/-- Numeric value of a digit string. -/
def digitsVal (l : PyStr) : Nat := l.foldl (fun a d => a * 10 + (d - 48)) 0

/-- Parse an unsigned run of digits; empty or non-digit input is a
`ValueError`, exactly as `int(...)` raises. -/
def digitsToInt (l : PyStr) : Except String Int :=
  if l ≠ [] ∧ l.all isDigitCp then .ok (digitsVal l) else .error "invalid literal for int() with base 10"

/-- Python `int(s)` on a string: surrounding whitespace is ignored, one
optional sign, then decimal digits; anything else raises `ValueError`. -/
def pyInt (s : PyStr) : Except String Int :=
  match pyStrip s with
  | [] => .error "invalid literal for int() with base 10"
  | c :: rest =>
    if c = 43 then digitsToInt rest
    else if c = 45 then (digitsToInt rest).map Int.neg
    else digitsToInt (c :: rest)

/-- `normalize_formation` from `etl/ingest_hudl_csv.py`: falsy input gives
`None`; otherwise ordered substring rules on the lower-cased, stripped
input, with a title-cased fallback. -/
def normalize_formation (raw : Option PyStr) : Option PyStr :=
  match raw with
  | none => none
  | some s =>
    if s = [] then none
    else
      let f := pyLower (pyStrip s)
      if substr (strLit "trips") f && substr (strLit "right") f then some (strLit "Trips Right")
      else if substr (strLit "trips") f && substr (strLit "left") f then some (strLit "Trips Left")
      else if substr (strLit "double") f then some (strLit "Doubles")
      else some (pyTitle (pyStrip s))

example : normalize_formation (some (strLit "Trips Right Heavy")) = some (strLit "Trips Right") := by decide
example : normalize_formation (some (strLit "doubles tight")) = some (strLit "Doubles") := by decide
example : normalize_formation (some (strLit "i-form")) = some (strLit "I-Form") := by decide
example : normalize_formation (some (strLit " ")) = some [] := by decide
example : normalize_formation (some []) = none := by decide
example : pyInt (strLit " 12 ") = .ok 12 := by rfl
example : pyInt (strLit "-3") = .ok (-3) := by rfl
example : pyInt (strLit "") = .error "invalid literal for int() with base 10" := by rfl
example : pyInt (strLit "4th") = .error "invalid literal for int() with base 10" := by rfl

/-! ## The relational store and `ingest_hudl_csv.py` -/

/-- A `games` row: identifier, season, week and the two team references,
in the exact column order `get_or_create_game` matches on. -/
structure GameRec where
  id : Nat
  season : Int
  week : Int
  home : Nat
  away : Nat
deriving DecidableEq, Repr

/-- A `drives` row created during ingestion. -/
structure DriveRec where
  id : Nat
  game_id : Nat
  offense_team_id : Nat
  defense_team_id : Nat
deriving DecidableEq, Repr

/-- A `plays` row, with exactly the columns the batch insert populates. -/
structure PlayRec where
  drive_id : Nat
  game_id : Nat
  offense_team_id : Nat
  defense_team_id : Nat
  quarter : Int
  clock : PyStr
  down : Int
  distance : Int
  yard_line : Int
  hash_mark : Option PyStr
  formation_raw : Option PyStr
  formation_norm : Option PyStr
  personnel : Option PyStr
  play_type : Option PyStr
  run_direction : Option PyStr
  pass_zone : Option PyStr
  yards_gained : Int
  result : Option PyStr
deriving DecidableEq, Repr

/-- The database state.  `driveBudget` is a fault-injection device for the
external store: `some k` means the store accepts `k` more drive inserts and
then fails (connectivity loss / constraint violation surfaced by the
database); `none` means the store never fails.  The program code itself
never reads it. -/
structure Store where
  teams : List (Nat × PyStr)
  games : List GameRec
  drives : List DriveRec
  plays : List PlayRec
  nextTeamId : Nat
  nextGameId : Nat
  nextDriveId : Nat
  driveBudget : Option Nat
deriving DecidableEq, Repr

/-- `SELECT team_id FROM teams WHERE team_name = %s` (first match). -/
def findTeam (name : PyStr) : List (Nat × PyStr) → Option Nat
  | [] => none
  | (i, n) :: t => if n = name then some i else findTeam name t

/-- `get_or_create_team` from `etl/ingest_hudl_csv.py`. -/
def get_or_create_team (name : PyStr) (st : Store) : Nat × Store :=
  match findTeam name st.teams with
  | some i => (i, st)
  | none =>
    (st.nextTeamId,
     { st with teams := st.teams ++ [(st.nextTeamId, name)], nextTeamId := st.nextTeamId + 1 })

/-- `SELECT game_id FROM games WHERE season = .. AND week = .. AND
home_team_id = .. AND away_team_id = ..` (first match, exact field order). -/
def findGame (s w : Int) (h a : Nat) : List GameRec → Option Nat
  | [] => none
  | g :: t => if g.season = s ∧ g.week = w ∧ g.home = h ∧ g.away = a then some g.id else findGame s w h a t

/-- `get_or_create_game` from `etl/ingest_hudl_csv.py`. -/
def get_or_create_game (s w : Int) (home away : Nat) (st : Store) : Nat × Store :=
  match findGame s w home away st.games with
  | some i => (i, st)
  | none =>
    (st.nextGameId,
     { st with games := st.games ++ [⟨st.nextGameId, s, w, home, away⟩],
               nextGameId := st.nextGameId + 1 })

/-- `INSERT INTO drives ... RETURNING drive_id`, issued against the external
store; it fails once the fault-injection budget is exhausted. -/
def insert_drive (g off de : Nat) (st : Store) : Except String (Nat × Store) :=
  match st.driveBudget with
  | some 0 => .error "store failure"
  | some (k + 1) =>
    .ok (st.nextDriveId,
         { st with drives := st.drives ++ [⟨st.nextDriveId, g, off, de⟩],
                   nextDriveId := st.nextDriveId + 1, driveBudget := some k })
  | none =>
    .ok (st.nextDriveId,
         { st with drives := st.drives ++ [⟨st.nextDriveId, g, off, de⟩],
                   nextDriveId := st.nextDriveId + 1 })

/-- One CSV row as `csv.DictReader` yields it: every column a string. -/
structure Row where
  Season : PyStr
  Week : PyStr
  OffenseTeam : PyStr
  DefenseTeam : PyStr
  Quarter : PyStr
  Clock : PyStr
  Down : PyStr
  Distance : PyStr
  YardLine : PyStr
  Hash : PyStr
  Formation : PyStr
  Personnel : PyStr
  PlayType : PyStr
  RunDirection : PyStr
  PassZone : PyStr
  Yards : PyStr
  Result : PyStr
deriving DecidableEq, Repr

/-- The body of the `for row in reader` loop of `load_hudl_csv`, in source
order: `int(...)` coercions, team and game resolution, the remaining field
coercions, the drive insert, and the play record appended to the batch. -/
def processRow (row : Row) (st0 : Store) : Except String (Store × PlayRec) :=
  match pyInt row.Season with
  | .error e => .error e
  | .ok season =>
  match pyInt row.Week with
  | .error e => .error e
  | .ok week =>
  let t1 := get_or_create_team row.OffenseTeam st0
  let offense_team_id := t1.1
  let t2 := get_or_create_team row.DefenseTeam t1.2
  let defense_team_id := t2.1
  let g := get_or_create_game season week offense_team_id defense_team_id t2.2
  let game_id := g.1
  let st3 := g.2
  match pyInt row.Quarter with
  | .error e => .error e
  | .ok quarter =>
  let clock := row.Clock
  match pyInt row.Down with
  | .error e => .error e
  | .ok down =>
  match pyInt row.Distance with
  | .error e => .error e
  | .ok distance =>
  match pyInt row.YardLine with
  | .error e => .error e
  | .ok yard_line =>
  let hash_mark := orNone row.Hash
  let formation_raw := orNone row.Formation
  let formation_norm := normalize_formation formation_raw
  let personnel := orNone row.Personnel
  let play_type := orNone row.PlayType
  let run_direction := orNone row.RunDirection
  let pass_zone := orNone row.PassZone
  match pyInt row.Yards with
  | .error e => .error e
  | .ok yards_gained =>
  let result := orNone row.Result
  match insert_drive game_id offense_team_id defense_team_id st3 with
  | .error e => .error e
  | .ok dr =>
    .ok (dr.2,
      ⟨dr.1, game_id, offense_team_id, defense_team_id, quarter, clock,
       down, distance, yard_line, hash_mark, formation_raw, formation_norm,
       personnel, play_type, run_direction, pass_zone, yards_gained, result⟩)

/-- The row pass: fold `processRow` over the file, accumulating
`plays_to_insert`.  Any exception aborts the pass. -/
def loadRows : List Row → Store → List PlayRec → Except String (Store × List PlayRec)
  | [], st, acc => .ok (st, acc)
  | r :: rs, st, acc =>
    match processRow r st with
    | .error e => .error e
    | .ok (st', p) => loadRows rs st' (acc ++ [p])

/-- `execute_batch` of the accumulated `plays_to_insert`. -/
def insertPlays (st : Store) (batch : List PlayRec) : Store :=
  { st with plays := st.plays ++ batch }

/-- `load_hudl_csv` from `etl/ingest_hudl_csv.py`.  `db` is the committed
database state; the connection runs with `autocommit = False`, so the row
pass and the batch insert act on the open transaction and `conn.commit()`
installs it only after everything succeeded.  The first component is the
Python outcome: an uncaught exception, or normal return — and the function
body has no `return` statement, so a normal return carries `None`.  The
second component is the committed state after the call: on an exception the
transaction is never committed and the committed state is still `db`. -/
def load_hudl_csv (rows : List Row) (db : Store) : Except String (Option Nat) × Store :=
  match loadRows rows db [] with
  | .error e => (.error e, db)
  | .ok (st, batch) => (.ok none, insertPlays st batch)

/-! ## `ingest_teams_csv.py` -/

/-- One row of the team-roster CSV; `row.get(..)` yields `None` for an
absent column, else the cell string. -/
structure TeamFull where
  team_name : Option PyStr
  mascot : Option PyStr
  city : Option PyStr
  state : Option PyStr
  division : Option PyStr
  region : Option PyStr
  district : Option PyStr
deriving DecidableEq, Repr

/-- The declared uniqueness constraint `teams_unique_name_city_state`:
two rows conflict when they agree on name, city and state. -/
def keyMatch (a b : TeamFull) : Bool :=
  a.team_name = b.team_name && a.city = b.city && a.state = b.state

/-- Does the table already hold a row conflicting with `t`? -/
def hasKey (t : TeamFull) (l : List TeamFull) : Bool := l.any (keyMatch t)

/-- Worker for `load_teams_csv`: one `INSERT ... ON CONFLICT ON CONSTRAINT
teams_unique_name_city_state DO NOTHING` per row, counting `rowcount == 1`
as inserted and anything else as skipped. -/
def loadTeamsAux : List TeamFull → List TeamFull → Nat → Nat → (Nat × Nat) × List TeamFull
  | [], l, ins, skp => ((ins, skp), l)
  | r :: rs, l, ins, skp =>
    if hasKey r l then loadTeamsAux rs l ins (skp + 1)
    else loadTeamsAux rs (l ++ [r]) (ins + 1) skp

/-- `load_teams_csv` from `etl/ingest_teams_csv.py`: returns the
`(inserted, skipped)` pair and the committed `teams` table. -/
def load_teams_csv (rows : List TeamFull) (table : List TeamFull) : (Nat × Nat) × List TeamFull :=
  loadTeamsAux rows table 0 0

/-! ## Concrete sample data for witnesses and counterexamples -/

/-- An empty database whose store never fails. -/
def db0 : Store := ⟨[], [], [], [], 0, 0, 0, none⟩

/-- An empty database whose store fails after two drive inserts. -/
def dbFail2 : Store := ⟨[], [], [], [], 0, 0, 0, some 2⟩

/-- A well-formed CSV row (Eagles on offense against Hawks). -/
def rowA : Row :=
  ⟨strLit "2024", strLit "1", strLit "Eagles", strLit "Hawks", strLit "1",
   strLit "12:00", strLit "1", strLit "10", strLit "25", strLit "L",
   strLit "Trips Right Heavy", strLit "11", strLit "Run", strLit "Left",
   strLit "", strLit "5", strLit "Complete"⟩

/-- The same game situation with offense and defense swapped. -/
def rowB : Row := { rowA with OffenseTeam := strLit "Hawks", DefenseTeam := strLit "Eagles" }

/-- `rowA` with an empty `Quarter` cell. -/
def rowBadQuarter : Row := { rowA with Quarter := strLit "" }

/-- `rowA` with a non-numeric `Season` cell. -/
def rowBadSeason : Row := { rowA with Season := strLit "fall" }

example : (load_hudl_csv [rowA] db0).1 = .ok none := by rfl
example : (load_hudl_csv [rowA] db0).2.plays.length = 1 := by decide
example : (load_hudl_csv [rowA, rowB] db0).2.plays.map PlayRec.game_id = [0, 1] := by decide
example : (load_hudl_csv [rowBadQuarter] db0).2 = db0 := by decide
example : (load_hudl_csv [rowA, rowA, rowA] dbFail2).2 = dbFail2 := by decide
example : (load_hudl_csv [rowA, rowA, rowA] dbFail2).1 = .error "store failure" := by rfl
example : (load_teams_csv [⟨some (strLit "Eagles"), none, some (strLit "Springfield"), some (strLit "IL"), none, none, none⟩] []).1 = (1, 0) := by decide

/-! ## Helper lemmas about the store operations -/

/-- A hit of `findTeam` survives appending a row at the end of the table. -/
theorem findTeam_append (m : PyStr) (ts : List (Nat × PyStr)) (x : Nat × PyStr) (i : Nat)
    (h : findTeam m ts = some i) : findTeam m (ts ++ [x]) = some i := by
  induction ts with
  | nil => simp [findTeam] at h
  | cons hd tl ih =>
    by_cases he : hd.2 = m
    · simpa [findTeam, he] using by simpa [findTeam, he] using h
    · simp only [findTeam, if_neg he, List.cons_append] at h ⊢
      exact ih h

/-- After inserting a team with a fresh name, `findTeam` returns it. -/
theorem findTeam_append_self (m : PyStr) (ts : List (Nat × PyStr)) (i : Nat)
    (h : findTeam m ts = none) : findTeam m (ts ++ [(i, m)]) = some i := by
  induction ts with
  | nil => simp [findTeam]
  | cons hd tl ih =>
    by_cases he : hd.2 = m
    · simp [findTeam, he] at h
    · simp only [findTeam, if_neg he, List.cons_append] at h ⊢
      exact ih h

theorem goc_team_find (name : PyStr) (st : Store) :
    findTeam name (get_or_create_team name st).2.teams = some (get_or_create_team name st).1 := by
  unfold get_or_create_team
  cases h : findTeam name st.teams with
  | some i => simpa using h
  | none => simpa using findTeam_append_self name st.teams st.nextTeamId h

theorem goc_team_pres (name m : PyStr) (st : Store) (i : Nat)
    (h : findTeam m st.teams = some i) :
    findTeam m (get_or_create_team name st).2.teams = some i := by
  unfold get_or_create_team
  cases hf : findTeam name st.teams with
  | some j => simpa using h
  | none => simpa using findTeam_append m st.teams _ i h

theorem goc_team_games (name : PyStr) (st : Store) :
    (get_or_create_team name st).2.games = st.games := by
  unfold get_or_create_team
  cases hf : findTeam name st.teams <;> rfl

theorem goc_team_plays (name : PyStr) (st : Store) :
    (get_or_create_team name st).2.plays = st.plays := by
  unfold get_or_create_team
  cases hf : findTeam name st.teams <;> rfl

/-- A hit of `findGame` survives appending a game row. -/
theorem findGame_append (s w : Int) (hh a : Nat) (l : List GameRec) (x : GameRec) (i : Nat)
    (h : findGame s w hh a l = some i) : findGame s w hh a (l ++ [x]) = some i := by
  induction l with
  | nil => simp [findGame] at h
  | cons hd tl ih =>
    by_cases he : hd.season = s ∧ hd.week = w ∧ hd.home = hh ∧ hd.away = a
    · simpa [findGame, he] using by simpa [findGame, he] using h
    · simp only [findGame, if_neg he, List.cons_append] at h ⊢
      exact ih h

/-- After inserting a game with fresh key fields, `findGame` returns it. -/
theorem findGame_append_self (s w : Int) (hh a : Nat) (l : List GameRec) (i : Nat)
    (h : findGame s w hh a l = none) :
    findGame s w hh a (l ++ [⟨i, s, w, hh, a⟩]) = some i := by
  induction l with
  | nil => simp [findGame]
  | cons hd tl ih =>
    by_cases he : hd.season = s ∧ hd.week = w ∧ hd.home = hh ∧ hd.away = a
    · simp [findGame, he] at h
    · simp only [findGame, if_neg he, List.cons_append] at h ⊢
      exact ih h

/-- A miss of `findGame` stays a miss after appending a non-matching row. -/
theorem findGame_append_miss (s w : Int) (hh a : Nat) (l : List GameRec) (g : GameRec)
    (h : findGame s w hh a l = none)
    (hg : ¬(g.season = s ∧ g.week = w ∧ g.home = hh ∧ g.away = a)) :
    findGame s w hh a (l ++ [g]) = none := by
  induction l with
  | nil => simp [findGame, hg]
  | cons hd tl ih =>
    by_cases he : hd.season = s ∧ hd.week = w ∧ hd.home = hh ∧ hd.away = a
    · simp [findGame, he] at h
    · simp only [findGame, if_neg he, List.cons_append] at h ⊢
      exact ih h

theorem goc_game_find (s w : Int) (hh a : Nat) (st : Store) :
    findGame s w hh a (get_or_create_game s w hh a st).2.games
      = some (get_or_create_game s w hh a st).1 := by
  unfold get_or_create_game
  cases h : findGame s w hh a st.games with
  | some i => simpa using h
  | none => simpa using findGame_append_self s w hh a st.games st.nextGameId h

theorem goc_game_teams (s w : Int) (hh a : Nat) (st : Store) :
    (get_or_create_game s w hh a st).2.teams = st.teams := by
  unfold get_or_create_game
  cases h : findGame s w hh a st.games <;> rfl

theorem goc_game_plays (s w : Int) (hh a : Nat) (st : Store) :
    (get_or_create_game s w hh a st).2.plays = st.plays := by
  unfold get_or_create_game
  cases h : findGame s w hh a st.games <;> rfl

/-- `get_or_create_team` on a hit returns the found id and does not touch
the store. -/
theorem goc_team_found (name : PyStr) (st : Store) (i : Nat)
    (h : findTeam name st.teams = some i) : get_or_create_team name st = (i, st) := by
  unfold get_or_create_team
  rw [h]

/-- `get_or_create_team` on a miss inserts a fresh row. -/
theorem goc_team_miss (name : PyStr) (st : Store)
    (h : findTeam name st.teams = none) :
    get_or_create_team name st
      = (st.nextTeamId,
         { st with teams := st.teams ++ [(st.nextTeamId, name)],
                   nextTeamId := st.nextTeamId + 1 }) := by
  unfold get_or_create_team
  rw [h]

/-- `get_or_create_game` on a hit returns the found id and does not touch
the store. -/
theorem goc_game_found (s w : Int) (hh a : Nat) (st : Store) (i : Nat)
    (h : findGame s w hh a st.games = some i) : get_or_create_game s w hh a st = (i, st) := by
  unfold get_or_create_game
  rw [h]

/-- `get_or_create_game` on a miss inserts a fresh row. -/
theorem goc_game_miss (s w : Int) (hh a : Nat) (st : Store)
    (h : findGame s w hh a st.games = none) :
    get_or_create_game s w hh a st
      = (st.nextGameId,
         { st with games := st.games ++ [⟨st.nextGameId, s, w, hh, a⟩],
                   nextGameId := st.nextGameId + 1 }) := by
  unfold get_or_create_game
  rw [h]

theorem insert_drive_fields (g off de : Nat) (st : Store) (i : Nat) (st' : Store)
    (h : insert_drive g off de st = .ok (i, st')) :
    st'.teams = st.teams ∧ st'.games = st.games ∧ st'.plays = st.plays := by
  unfold insert_drive at h
  split at h
  · simp at h
  · simp only [Except.ok.injEq, Prod.mk.injEq] at h
    obtain ⟨-, h2⟩ := h
    subst h2
    exact ⟨rfl, rfl, rfl⟩
  · simp only [Except.ok.injEq, Prod.mk.injEq] at h
    obtain ⟨-, h2⟩ := h
    subst h2
    exact ⟨rfl, rfl, rfl⟩

/-- The whole call either raises, or commits; when it raises, the committed
state is exactly the one before the call. -/
theorem load_error_store_eq (rows : List Row) (db : Store) (e : String)
    (h : (load_hudl_csv rows db).1 = .error e) : (load_hudl_csv rows db).2 = db := by
  unfold load_hudl_csv at h ⊢
  cases hl : loadRows rows db [] with
  | error e' => rfl
  | ok x => rw [hl] at h; simp at h

/-- Claim C1: on any exception raised during the row pass or the batch
insert, the entire transaction is rolled back: the committed store is
unchanged, so no partial Game, Drive or Play data is persisted. -/
theorem c1_rollback_on_error (rows : List Row) (db : Store) (e : String)
    (h : (load_hudl_csv rows db).1 = .error e) :
    (load_hudl_csv rows db).2 = db ∧ (load_hudl_csv rows db).2.plays = db.plays := by
  have hst := load_error_store_eq rows db e h
  exact ⟨hst, by rw [hst]⟩

/-- Claim C1, witness: a store failure forced after two of three rows have
been batched but not committed raises, and zero Play records are persisted. -/
theorem c1_rollback_on_error_witness :
    (load_hudl_csv [rowA, rowA, rowA] dbFail2).1 = .error "store failure" ∧
    (load_hudl_csv [rowA, rowA, rowA] dbFail2).2.plays = [] := by
  refine ⟨by rfl, ?_⟩
  have h := c1_rollback_on_error [rowA, rowA, rowA] dbFail2 "store failure" (by rfl)
  exact h.2.trans (by rfl)

/-- A normal (non-raising) return of `load_hudl_csv` carries `None`: the
function body has no `return` statement. -/
theorem load_ok_returns_none (rows : List Row) (db : Store) (v : Option Nat)
    (h : (load_hudl_csv rows db).1 = .ok v) : v = none := by
  unfold load_hudl_csv at h
  cases hl : loadRows rows db [] with
  | error e => rw [hl] at h; simp at h
  | ok x => rw [hl] at h; simpa using h.symm

/-- Claim C3, counterexample: on a valid one-row CSV the call succeeds,
a Game record exists, yet the call returns `None`, not the game id. -/
theorem c3_counterexample :
    (load_hudl_csv [rowA] db0).1 = .ok none ∧ (load_hudl_csv [rowA] db0).2.games.length = 1 :=
  ⟨by rfl, by decide⟩

/-- Claim C3, amended: every successful ingestion call returns `None`; the
identifier of the Game the plays were attached to is not returned. -/
theorem c3_returns_none (rows : List Row) (db : Store) (v : Option Nat)
    (h : (load_hudl_csv rows db).1 = .ok v) : v = none :=
  load_ok_returns_none rows db v h

/-- Claim C3, witness for the amended theorem at a concrete run. -/
theorem c3_returns_none_witness :
    (load_hudl_csv [rowA] db0).1 = .ok none ∧ (none : Option Nat) = none :=
  ⟨by rfl, c3_returns_none [rowA] db0 none (by rfl)⟩

/-- Number of team rows carrying a given name. -/
def countName (name : PyStr) (ts : List (Nat × PyStr)) : Nat :=
  (ts.filter (fun p => decide (p.2 = name))).length

theorem findTeam_none_countName (name : PyStr) (ts : List (Nat × PyStr))
    (h : findTeam name ts = none) : countName name ts = 0 := by
  induction ts with
  | nil => rfl
  | cons hd tl ih =>
    by_cases he : hd.2 = name
    · simp [findTeam, he] at h
    · simp only [findTeam, if_neg he] at h
      simpa [countName, he] using ih h

/-- Claim C5: resolving the same team name twice in one run returns the
same identifier both times, leaves the store unchanged on the second call,
and results in exactly one Team record with that name. -/
theorem c5_team_resolution_idempotent (name : PyStr) (st : Store)
    (h : findTeam name st.teams = none) :
    (get_or_create_team name (get_or_create_team name st).2).1 = (get_or_create_team name st).1 ∧
    (get_or_create_team name (get_or_create_team name st).2).2 = (get_or_create_team name st).2 ∧
    countName name (get_or_create_team name st).2.teams = 1 := by
  have hfind := goc_team_find name st
  have hsecond := goc_team_found name (get_or_create_team name st).2
    (get_or_create_team name st).1 hfind
  refine ⟨by rw [hsecond], by rw [hsecond], ?_⟩
  have hteams : (get_or_create_team name st).2.teams = st.teams ++ [(st.nextTeamId, name)] := by
    rw [goc_team_miss name st h]
  have h0 : countName name st.teams = 0 := findTeam_none_countName name st.teams h
  rw [hteams]
  unfold countName at h0 ⊢
  rw [List.filter_append, List.length_append, h0]
  simp

/-- Claim C5, witness: resolving a fresh name twice on the empty store. -/
theorem c5_team_resolution_idempotent_witness :
    findTeam (strLit "Eagles") db0.teams = none ∧
    (get_or_create_team (strLit "Eagles") (get_or_create_team (strLit "Eagles") db0).2).1
      = (get_or_create_team (strLit "Eagles") db0).1 ∧
    countName (strLit "Eagles") (get_or_create_team (strLit "Eagles") db0).2.teams = 1 := by
  have h := c5_team_resolution_idempotent (strLit "Eagles") db0 (by rfl)
  exact ⟨by rfl, h.1, h.2.2⟩

/-- Claim C9: game lookup matches the exact `(home, away)` field order, so
after creating a game for `(A, B)` a call with `(B, A)` misses it and
creates a second, distinct Game record. -/
theorem c9_game_order_sensitive (s w : Int) (A B : Nat) (st : Store) (hne : A ≠ B)
    (h1 : findGame s w A B st.games = none) (h2 : findGame s w B A st.games = none) :
    findGame s w B A (get_or_create_game s w A B st).2.games = none ∧
    (get_or_create_game s w B A (get_or_create_game s w A B st).2).1
      ≠ (get_or_create_game s w A B st).1 ∧
    (get_or_create_game s w B A (get_or_create_game s w A B st).2).2.games.length
      = st.games.length + 2 := by
  have hq1 := goc_game_miss s w A B st h1
  have hg1 : (get_or_create_game s w A B st).2.games
      = st.games ++ [⟨st.nextGameId, s, w, A, B⟩] := by rw [hq1]
  have hid1 : (get_or_create_game s w A B st).1 = st.nextGameId := by rw [hq1]
  have hnext1 : (get_or_create_game s w A B st).2.nextGameId = st.nextGameId + 1 := by rw [hq1]
  have hmiss : findGame s w B A (get_or_create_game s w A B st).2.games = none := by
    rw [hg1]
    exact findGame_append_miss s w B A st.games _ h2 (fun hc => hne hc.2.2.1)
  have hq2 := goc_game_miss s w B A (get_or_create_game s w A B st).2 hmiss
  refine ⟨hmiss, ?_, ?_⟩
  · rw [hq2, hid1]
    simp only [hnext1]
    omega
  · rw [hq2]
    simp only [hg1]
    simp

/-- Claim C9, witness at concrete teams 0 and 1 on the empty store. -/
theorem c9_game_order_sensitive_witness :
    findGame 2024 1 1 0 (get_or_create_game 2024 1 0 1 db0).2.games = none ∧
    (get_or_create_game 2024 1 1 0 (get_or_create_game 2024 1 0 1 db0).2).1
      ≠ (get_or_create_game 2024 1 0 1 db0).1 ∧
    (get_or_create_game 2024 1 1 0 (get_or_create_game 2024 1 0 1 db0).2).2.games.length
      = db0.games.length + 2 :=
  c9_game_order_sensitive 2024 1 0 1 db0 (by decide) (by rfl) (by rfl)

/-! ## Claim C7: the team bulk loader -/

/-- The table only ever grows at the end during a load. -/
theorem loadTeamsAux_grows (rows : List TeamFull) :
    ∀ l ins skp, ∃ l2, (loadTeamsAux rows l ins skp).2 = l ++ l2 := by
  induction rows with
  | nil => intro l ins skp; exact ⟨[], by simp [loadTeamsAux]⟩
  | cons r rs ih =>
    intro l ins skp
    unfold loadTeamsAux
    by_cases hk : hasKey r l
    · rw [if_pos hk]
      exact ih l ins (skp + 1)
    · rw [if_neg hk]
      obtain ⟨l2, hl2⟩ := ih (l ++ [r]) (ins + 1) skp
      exact ⟨[r] ++ l2, by rw [hl2, List.append_assoc]⟩

/-- A conflict with an existing row survives extending the table. -/
theorem hasKey_append (t : TeamFull) (l l2 : List TeamFull) (h : hasKey t l = true) :
    hasKey t (l ++ l2) = true := by
  simp only [hasKey, List.any_append, Bool.or_eq_true]
  exact Or.inl (by simpa [hasKey] using h)

/-- Every row reflexively conflicts with itself. -/
theorem keyMatch_self (t : TeamFull) : keyMatch t t = true := by
  simp [keyMatch]

/-- After a load, every processed row's key is present in the table. -/
theorem loadTeamsAux_covers (rows : List TeamFull) :
    ∀ l ins skp r, r ∈ rows → hasKey r (loadTeamsAux rows l ins skp).2 = true := by
  induction rows with
  | nil => intro l ins skp r hr; simp at hr
  | cons r0 rs ih =>
    intro l ins skp r hr
    unfold loadTeamsAux
    rcases List.mem_cons.mp hr with hr0 | hrs
    · subst hr0
      by_cases hk : hasKey r l
      · rw [if_pos hk]
        obtain ⟨l2, hl2⟩ := loadTeamsAux_grows rs l ins (skp + 1)
        rw [hl2]
        exact hasKey_append r l l2 hk
      · rw [if_neg hk]
        obtain ⟨l2, hl2⟩ := loadTeamsAux_grows rs (l ++ [r]) (ins + 1) skp
        rw [hl2]
        exact hasKey_append r (l ++ [r]) l2 (by simp [hasKey, keyMatch_self])
    · by_cases hk : hasKey r0 l
      · rw [if_pos hk]; exact ih l ins (skp + 1) r hrs
      · rw [if_neg hk]; exact ih (l ++ [r0]) (ins + 1) skp r hrs

/-- Loading rows whose keys are all already present inserts nothing: every
row is skipped and the table is unchanged. -/
theorem loadTeamsAux_all_skipped (rows : List TeamFull) :
    ∀ l ins skp, (∀ r ∈ rows, hasKey r l = true) →
    loadTeamsAux rows l ins skp = ((ins, skp + rows.length), l) := by
  induction rows with
  | nil => intro l ins skp _; simp [loadTeamsAux]
  | cons r0 rs ih =>
    intro l ins skp hall
    unfold loadTeamsAux
    rw [if_pos (hall r0 (List.mem_cons_self r0 rs))]
    rw [ih l ins (skp + 1) (fun r hr => hall r (List.mem_cons_of_mem r0 hr))]
    simp only [List.length_cons]
    congr 2
    omega

/-- The two counters account for every row. -/
theorem loadTeamsAux_counts (rows : List TeamFull) :
    ∀ l ins skp,
      (loadTeamsAux rows l ins skp).1.1 + (loadTeamsAux rows l ins skp).1.2
        = ins + skp + rows.length := by
  induction rows with
  | nil => intro l ins skp; simp [loadTeamsAux]
  | cons r0 rs ih =>
    intro l ins skp
    unfold loadTeamsAux
    by_cases hk : hasKey r0 l
    · rw [if_pos hk, ih l ins (skp + 1)]
      simp only [List.length_cons]
      omega
    · rw [if_neg hk, ih (l ++ [r0]) (ins + 1) skp]
      simp only [List.length_cons]
      omega

/-- Claim C7: `load_teams_csv` returns the `(inserted, skipped)` pair, the
two counts accounting for every CSV row; re-running it on the same rows
inserts no second Team row under the uniqueness constraint — the duplicate
rows are all reported skipped and the table is unchanged. -/
theorem c7_teams_loader_idempotent (rows : List TeamFull) (table : List TeamFull) :
    (load_teams_csv rows table).1.1 + (load_teams_csv rows table).1.2 = rows.length ∧
    load_teams_csv rows (load_teams_csv rows table).2
      = ((0, rows.length), (load_teams_csv rows table).2) := by
  constructor
  · simpa using loadTeamsAux_counts rows table 0 0
  · unfold load_teams_csv
    rw [loadTeamsAux_all_skipped rows _ 0 0
      (fun r hr => loadTeamsAux_covers rows table 0 0 r hr)]
    simp

/-! ## Claims C6 and C10: the formation normalizer -/

/-- Claim C6: for every non-empty formation string the ordered substring
rules fire first-match-first on the lower-cased stripped input, the
fallback returning the stripped original title-cased; on the spec's
examples: "Trips Right Heavy" → "Trips Right", "doubles tight" →
"Doubles", "i-form" → "I-Form". -/
theorem c6_formation_rules (s : PyStr) (hs : s ≠ []) :
    ((substr (strLit "trips") (pyLower (pyStrip s))
        && substr (strLit "right") (pyLower (pyStrip s))) = true →
      normalize_formation (some s) = some (strLit "Trips Right")) ∧
    ((substr (strLit "trips") (pyLower (pyStrip s))
        && substr (strLit "right") (pyLower (pyStrip s))) = false →
     (substr (strLit "trips") (pyLower (pyStrip s))
        && substr (strLit "left") (pyLower (pyStrip s))) = true →
      normalize_formation (some s) = some (strLit "Trips Left")) ∧
    ((substr (strLit "trips") (pyLower (pyStrip s))
        && substr (strLit "right") (pyLower (pyStrip s))) = false →
     (substr (strLit "trips") (pyLower (pyStrip s))
        && substr (strLit "left") (pyLower (pyStrip s))) = false →
     substr (strLit "double") (pyLower (pyStrip s)) = true →
      normalize_formation (some s) = some (strLit "Doubles")) ∧
    ((substr (strLit "trips") (pyLower (pyStrip s))
        && substr (strLit "right") (pyLower (pyStrip s))) = false →
     (substr (strLit "trips") (pyLower (pyStrip s))
        && substr (strLit "left") (pyLower (pyStrip s))) = false →
     substr (strLit "double") (pyLower (pyStrip s)) = false →
      normalize_formation (some s) = some (pyTitle (pyStrip s))) ∧
    normalize_formation (some (strLit "Trips Right Heavy")) = some (strLit "Trips Right") ∧
    normalize_formation (some (strLit "doubles tight")) = some (strLit "Doubles") ∧
    normalize_formation (some (strLit "i-form")) = some (strLit "I-Form") := by
  refine ⟨?_, ?_, ?_, ?_, by decide, by decide, by decide⟩
  · intro h1
    simp [normalize_formation, hs, h1]
  · intro h1 h2
    simp [normalize_formation, hs, h1, h2]
  · intro h1 h2 h3
    simp [normalize_formation, hs, h1, h2, h3]
  · intro h1 h2 h3
    simp [normalize_formation, hs, h1, h2, h3]

/-- Claim C6, witness: rule 1 fires on "Trips Right Heavy". -/
theorem c6_formation_rules_witness :
    (strLit "Trips Right Heavy" : PyStr) ≠ [] ∧
    normalize_formation (some (strLit "Trips Right Heavy")) = some (strLit "Trips Right") :=
  ⟨by decide, (c6_formation_rules (strLit "Trips Right Heavy") (by decide)).1 (by decide)⟩

/-- Claim C10: a non-empty all-whitespace formation string is truthy yet
strips to the empty string, so the fallback returns the empty string — not
`None` — whereas the empty string and `None` inputs both return `None`. -/
theorem c10_whitespace_formation :
    (∀ s : PyStr, s ≠ [] → pyStrip s = [] → normalize_formation (some s) = some []) ∧
    normalize_formation (some []) = none ∧
    normalize_formation none = none := by
  refine ⟨?_, by decide, by decide⟩
  intro s hne hstrip
  simp [normalize_formation, hne, hstrip, pyLower, substr, strLit, isPre, pyTitle, titleAux]

/-- Claim C10, witness: a single-space formation string. -/
theorem c10_whitespace_formation_witness :
    (strLit " " : PyStr) ≠ [] ∧ pyStrip (strLit " ") = [] ∧
    normalize_formation (some (strLit " ")) = some [] :=
  ⟨by decide, by decide, c10_whitespace_formation.1 (strLit " ") (by decide) (by decide)⟩

/-! ## Claim C2: numeric coercion -/

/-- Does `int(s)` succeed? -/
def intOk (s : PyStr) : Bool :=
  match pyInt s with
  | .ok _ => true
  | .error _ => false

/-- Do all seven `int(...)` coercions of a row succeed? -/
def rowNumsOk (r : Row) : Bool :=
  intOk r.Season && intOk r.Week && intOk r.Quarter && intOk r.Down
    && intOk r.Distance && intOk r.YardLine && intOk r.Yards

/-- A row that `processRow` accepts has all seven numeric cells parseable. -/
theorem processRow_ok_nums (r : Row) (st : Store) (x : Store × PlayRec)
    (h : processRow r st = .ok x) : rowNumsOk r = true := by
  unfold processRow at h
  repeat' split at h
  all_goals simp only [rowNumsOk, intOk]
  all_goals simp_all

/-- If the row pass succeeds, every row had parseable numeric cells. -/
theorem loadRows_ok_nums (rows : List Row) :
    ∀ st acc x, loadRows rows st acc = .ok x → ∀ r ∈ rows, rowNumsOk r = true := by
  induction rows with
  | nil => intro st acc x h r hr; simp at hr
  | cons r0 rs ih =>
    intro st acc x h r hr
    unfold loadRows at h
    cases hp : processRow r0 st with
    | error e => rw [hp] at h; simp at h
    | ok y =>
      obtain ⟨st1, p⟩ := y
      rw [hp] at h
      rcases List.mem_cons.mp hr with h0 | hrs
      · subst h0; exact processRow_ok_nums r st ⟨st1, p⟩ hp
      · exact ih st1 (acc ++ [p]) x h r hrs

/-- Claim C2, counterexample: a row whose `Quarter` cell is the empty
string makes the ingestion raise `ValueError` and persist nothing — the
field is not coerced to null and ingestion does not continue. -/
theorem c2_counterexample :
    (load_hudl_csv [rowBadQuarter] db0).1 = .error "invalid literal for int() with base 10" ∧
    (load_hudl_csv [rowBadQuarter] db0).2.plays = [] :=
  ⟨by rfl, by decide⟩

/-- Claim C2, amended: a malformed numeric cell (empty or non-numeric) in
any row makes the whole ingestion call raise and leaves the committed
store unchanged; there is no null fallback for numeric fields. -/
theorem c2_coercion_raises (rows : List Row) (db : Store) (r : Row)
    (hm : r ∈ rows) (hbad : rowNumsOk r = false) :
    ∃ e, (load_hudl_csv rows db).1 = .error e ∧ (load_hudl_csv rows db).2 = db := by
  cases hl : loadRows rows db [] with
  | ok x => exact absurd (loadRows_ok_nums rows db [] x hl r hm) (by simp [hbad])
  | error e =>
    refine ⟨e, ?_, ?_⟩ <;> unfold load_hudl_csv <;> rw [hl]

/-- Claim C2, witness for the amended theorem: the empty `Quarter` cell. -/
theorem c2_coercion_raises_witness :
    rowBadQuarter ∈ [rowBadQuarter] ∧ rowNumsOk rowBadQuarter = false ∧
    ∃ e, (load_hudl_csv [rowBadQuarter] db0).1 = .error e ∧
      (load_hudl_csv [rowBadQuarter] db0).2 = db0 :=
  ⟨List.mem_singleton.mpr rfl, by decide,
   c2_coercion_raises [rowBadQuarter] db0 rowBadQuarter (by simp) (by decide)⟩

/-! ## Claim C4: game identifiers within one call -/

theorem goc_game_pres (s w : Int) (hh a : Nat) (st : Store) (s' w' : Int) (h' a' i : Nat)
    (h : findGame s' w' h' a' st.games = some i) :
    findGame s' w' h' a' (get_or_create_game s w hh a st).2.games = some i := by
  unfold get_or_create_game
  cases hf : findGame s w hh a st.games with
  | some j => simpa using h
  | none => simpa using findGame_append s' w' h' a' st.games _ i h

/-- Full characterisation of a successful `processRow`: the season and week
parsed, the resolved identifiers are found in the resulting store, the play
fields carry them, the plays table is untouched, and existing lookups are
preserved. -/
theorem processRow_ok_spec (r : Row) (st st' : Store) (p : PlayRec)
    (h : processRow r st = .ok (st', p)) :
    ∃ s w, pyInt r.Season = .ok s ∧ pyInt r.Week = .ok w ∧
      findTeam r.OffenseTeam st'.teams = some p.offense_team_id ∧
      findTeam r.DefenseTeam st'.teams = some p.defense_team_id ∧
      findGame s w p.offense_team_id p.defense_team_id st'.games = some p.game_id ∧
      st'.plays = st.plays ∧
      (∀ m i, findTeam m st.teams = some i → findTeam m st'.teams = some i) ∧
      (∀ s' w' hh a i, findGame s' w' hh a st.games = some i →
        findGame s' w' hh a st'.games = some i) := by
  unfold processRow at h
  cases hS : pyInt r.Season with
  | error e => rw [hS] at h; exact absurd h (by simp)
  | ok s =>
  rw [hS] at h
  cases hW : pyInt r.Week with
  | error e => rw [hW] at h; exact absurd h (by simp)
  | ok w =>
  rw [hW] at h
  dsimp only at h
  set T1 := get_or_create_team r.OffenseTeam st with hT1
  set T2 := get_or_create_team r.DefenseTeam T1.2 with hT2
  set G := get_or_create_game s w T1.1 T2.1 T2.2 with hG
  cases hQ : pyInt r.Quarter with
  | error e => rw [hQ] at h; exact absurd h (by simp)
  | ok q =>
  rw [hQ] at h
  cases hD : pyInt r.Down with
  | error e => rw [hD] at h; exact absurd h (by simp)
  | ok dn =>
  rw [hD] at h
  cases hDi : pyInt r.Distance with
  | error e => rw [hDi] at h; exact absurd h (by simp)
  | ok di =>
  rw [hDi] at h
  cases hY : pyInt r.YardLine with
  | error e => rw [hY] at h; exact absurd h (by simp)
  | ok yl =>
  rw [hY] at h
  cases hYa : pyInt r.Yards with
  | error e => rw [hYa] at h; exact absurd h (by simp)
  | ok yg =>
  rw [hYa] at h
  cases hdr : insert_drive G.1 T1.1 T2.1 G.2 with
  | error e => rw [hdr] at h; exact absurd h (by simp)
  | ok dr =>
  rw [hdr] at h
  dsimp only at h
  rw [Except.ok.injEq, Prod.mk.injEq] at h
  obtain ⟨h1, h2⟩ := h
  subst h1
  subst h2
  have hf := insert_drive_fields G.1 T1.1 T2.1 G.2 dr.1 dr.2 hdr
  have hgt : G.2.teams = T2.2.teams := by rw [hG]; exact goc_game_teams s w T1.1 T2.1 T2.2
  have hgp : G.2.plays = T2.2.plays := by rw [hG]; exact goc_game_plays s w T1.1 T2.1 T2.2
  have ht1f : findTeam r.OffenseTeam T1.2.teams = some T1.1 := by
    rw [hT1]; exact goc_team_find r.OffenseTeam st
  have ht1f2 : findTeam r.OffenseTeam T2.2.teams = some T1.1 := by
    rw [hT2]; exact goc_team_pres r.DefenseTeam r.OffenseTeam T1.2 T1.1 ht1f
  have ht2f : findTeam r.DefenseTeam T2.2.teams = some T2.1 := by
    rw [hT2]; exact goc_team_find r.DefenseTeam T1.2
  have hgf : findGame s w T1.1 T2.1 G.2.games = some G.1 := by
    rw [hG]; exact goc_game_find s w T1.1 T2.1 T2.2
  refine ⟨s, w, rfl, rfl, ?_, ?_, ?_, ?_, ?_, ?_⟩
  · show findTeam r.OffenseTeam dr.2.teams = some T1.1
    rw [hf.1, hgt]; exact ht1f2
  · show findTeam r.DefenseTeam dr.2.teams = some T2.1
    rw [hf.1, hgt]; exact ht2f
  · show findGame s w T1.1 T2.1 dr.2.games = some G.1
    rw [hf.2.1]; exact hgf
  · show dr.2.plays = st.plays
    rw [hf.2.2, hgp]
    have e2 : T2.2.plays = T1.2.plays := by rw [hT2]; exact goc_team_plays r.DefenseTeam T1.2
    have e1 : T1.2.plays = st.plays := by rw [hT1]; exact goc_team_plays r.OffenseTeam st
    rw [e2, e1]
  · intro m i hm
    show findTeam m dr.2.teams = some i
    rw [hf.1, hgt]
    have s1 : findTeam m T1.2.teams = some i := by
      rw [hT1]; exact goc_team_pres r.OffenseTeam m st i hm
    rw [hT2]; exact goc_team_pres r.DefenseTeam m T1.2 i s1
  · intro s' w' hh a i hm
    show findGame s' w' hh a dr.2.games = some i
    rw [hf.2.1]
    have e2 : T2.2.games = st.games := by
      have e1 : T1.2.games = st.games := by rw [hT1]; exact goc_team_games r.OffenseTeam st
      rw [hT2, goc_team_games r.DefenseTeam T1.2, e1]
    rw [hG]
    apply goc_game_pres
    rw [e2]
    exact hm

/-- The row pass never writes to the plays table. -/
theorem loadRows_plays (rows : List Row) :
    ∀ st acc x, loadRows rows st acc = .ok x → x.1.plays = st.plays := by
  induction rows with
  | nil =>
    intro st acc x h
    unfold loadRows at h
    rw [Except.ok.injEq] at h
    subst h
    rfl
  | cons r0 rs ih =>
    intro st acc x h
    unfold loadRows at h
    cases hp : processRow r0 st with
    | error e => rw [hp] at h; exact absurd h (by simp)
    | ok y =>
      obtain ⟨st1, p⟩ := y
      rw [hp] at h
      obtain ⟨_, _, _, _, _, _, _, hpl, _, _⟩ := processRow_ok_spec r0 st st1 p hp
      exact (ih st1 (acc ++ [p]) x h).trans hpl

/-- Once the offense, defense and game of the shared row key are resolved
in the store, every further row with that key reuses the same game id. -/
theorem loadRows_stable (S W O D : PyStr) (s w : Int) (oid did gid : Nat) :
    ∀ rows : List Row, ∀ st acc st' acc',
    (∀ r ∈ rows, r.Season = S ∧ r.Week = W ∧ r.OffenseTeam = O ∧ r.DefenseTeam = D) →
    pyInt S = .ok s → pyInt W = .ok w →
    findTeam O st.teams = some oid → findTeam D st.teams = some did →
    findGame s w oid did st.games = some gid →
    loadRows rows st acc = .ok (st', acc') →
    ∀ p ∈ acc', p ∈ acc ∨ p.game_id = gid := by
  intro rows
  induction rows with
  | nil =>
    intro st acc st' acc' _ _ _ _ _ _ h p hp
    unfold loadRows at h
    rw [Except.ok.injEq, Prod.mk.injEq] at h
    exact Or.inl (h.2 ▸ hp)
  | cons r0 rs ih =>
    intro st acc st' acc' hkey hs hw hTO hTD hGm h p hp
    unfold loadRows at h
    cases hpr : processRow r0 st with
    | error e => rw [hpr] at h; exact absurd h (by simp)
    | ok y =>
      obtain ⟨st1, p0⟩ := y
      rw [hpr] at h
      obtain ⟨s0, w0, hS0, hW0, hfO, hfD, hfG, _, hpresT, hpresG⟩ :=
        processRow_ok_spec r0 st st1 p0 hpr
      have hr0 := hkey r0 (List.mem_cons_self r0 rs)
      rw [hr0.1, hs, Except.ok.injEq] at hS0
      rw [hr0.2.1, hw, Except.ok.injEq] at hW0
      subst hS0; subst hW0
      rw [hr0.2.2.1] at hfO
      rw [hr0.2.2.2] at hfD
      have hO1 : findTeam O st1.teams = some oid := hpresT O oid hTO
      have hD1 : findTeam D st1.teams = some did := hpresT D did hTD
      have hoid : p0.offense_team_id = oid := by
        have := hfO.symm.trans hO1
        exact Option.some.inj this
      have hdid : p0.defense_team_id = did := by
        have := hfD.symm.trans hD1
        exact Option.some.inj this
      have hG1 : findGame s w oid did st1.games = some gid := hpresG s w oid did gid hGm
      have hgid : p0.game_id = gid := by
        rw [hoid, hdid] at hfG
        exact Option.some.inj (hfG.symm.trans hG1)
      have hrec := ih st1 (acc ++ [p0]) st' acc'
        (fun r hr => hkey r (List.mem_cons_of_mem r0 hr)) hs hw hO1 hD1 hG1 h p hp
      rcases hrec with hin | hg
      · rcases List.mem_append.mp hin with ha | hb
        · exact Or.inl ha
        · exact Or.inr (by rw [List.mem_singleton.mp hb, hgid])
      · exact Or.inr hg

/-- Claim C4, counterexample: one call over a two-row CSV whose second row
swaps offense and defense persists two Play records with different game
identifiers. -/
theorem c4_counterexample :
    (load_hudl_csv [rowA, rowB] db0).1 = .ok none ∧
    (load_hudl_csv [rowA, rowB] db0).2.plays.map PlayRec.game_id = [0, 1] :=
  ⟨by rfl, by decide⟩

/-- Claim C4, amended: all Play records persisted by one call whose rows
share one (season, week, offense, defense) key carry the same game
identifier; rows with different keys (in particular, swapped possession)
may receive different game identifiers. -/
theorem c4_one_key_one_game (rows : List Row) (db : Store) (ret : Option Nat) (st' : Store)
    (S W O D : PyStr)
    (hkey : ∀ r ∈ rows, r.Season = S ∧ r.Week = W ∧ r.OffenseTeam = O ∧ r.DefenseTeam = D)
    (hok : load_hudl_csv rows db = (.ok ret, st')) :
    ∃ g, ∀ p ∈ st'.plays.drop db.plays.length, p.game_id = g := by
  unfold load_hudl_csv at hok
  cases hl : loadRows rows db [] with
  | error e => rw [hl] at hok; exact absurd hok (by simp)
  | ok y =>
    obtain ⟨stf, batch⟩ := y
    rw [hl] at hok
    rw [Prod.mk.injEq] at hok
    obtain ⟨-, hst⟩ := hok
    subst hst
    have hplays : stf.plays = db.plays := loadRows_plays rows db [] (stf, batch) hl
    have hip : (insertPlays stf batch).plays.drop db.plays.length = batch := by
      show (stf.plays ++ batch).drop db.plays.length = batch
      rw [hplays, List.drop_left]
    rw [hip]
    cases rows with
    | nil =>
      unfold loadRows at hl
      rw [Except.ok.injEq, Prod.mk.injEq] at hl
      refine ⟨0, ?_⟩
      intro p hp
      rw [← hl.2] at hp
      simp at hp
    | cons r0 rs =>
      unfold loadRows at hl
      cases hpr : processRow r0 db with
      | error e => rw [hpr] at hl; exact absurd hl (by simp)
      | ok y0 =>
        obtain ⟨st1, p0⟩ := y0
        rw [hpr] at hl
        obtain ⟨s, w, hS0, hW0, hfO, hfD, hfG, -, -, -⟩ :=
          processRow_ok_spec r0 db st1 p0 hpr
        have hr0 := hkey r0 (List.mem_cons_self r0 rs)
        rw [hr0.1] at hS0
        rw [hr0.2.1] at hW0
        rw [hr0.2.2.1] at hfO
        rw [hr0.2.2.2] at hfD
        refine ⟨p0.game_id, ?_⟩
        intro p hp
        have := loadRows_stable S W O D s w p0.offense_team_id p0.defense_team_id p0.game_id
          rs st1 [p0] stf batch (fun r hr => hkey r (List.mem_cons_of_mem r0 hr))
          hS0 hW0 hfO hfD hfG hl p hp
        rcases this with hin | hg
        · rw [List.mem_singleton.mp hin]
        · exact hg

/-- Claim C4, witness for the amended theorem: two identical-key rows in
one call, every persisted play carrying one shared game identifier. -/
theorem c4_one_key_one_game_witness :
    (∀ r ∈ [rowA, rowA], r.Season = strLit "2024" ∧ r.Week = strLit "1" ∧
      r.OffenseTeam = strLit "Eagles" ∧ r.DefenseTeam = strLit "Hawks") ∧
    ∃ g, ∀ p ∈ (load_hudl_csv [rowA, rowA] db0).2.plays.drop db0.plays.length, p.game_id = g :=
  ⟨by decide,
   c4_one_key_one_game [rowA, rowA] db0 none (load_hudl_csv [rowA, rowA] db0).2
     (strLit "2024") (strLit "1") (strLit "Eagles") (strLit "Hawks") (by decide) (by rfl)⟩

/-! ## Claim C8: idempotence of the formation normalizer -/

theorem bool_eq_of_iff {a b : Bool} (h : a = true ↔ b = true) : a = b := by
  cases a <;> cases b <;> simp_all

theorem loC_loC (c : Nat) : loC (loC c) = loC c := by
  by_cases h : 65 ≤ c ∧ c ≤ 90
  · have h1 : loC c = c + 32 := if_pos h
    rw [h1]
    exact if_neg (by omega)
  · have h1 : loC c = c := if_neg h
    rw [h1]
    exact h1

theorem loC_upC (c : Nat) : loC (upC c) = loC c := by
  by_cases h : 97 ≤ c ∧ c ≤ 122
  · have h1 : upC c = c - 32 := if_pos h
    have h2 : loC (c - 32) = c - 32 + 32 := if_pos (by omega)
    have h3 : loC c = c := if_neg (by omega)
    rw [h1, h2, h3]
    omega
  · have h1 : upC c = c := if_neg h
    rw [h1]

theorem upC_upC (c : Nat) : upC (upC c) = upC c := by
  by_cases h : 97 ≤ c ∧ c ≤ 122
  · have h1 : upC c = c - 32 := if_pos h
    rw [h1]
    exact if_neg (by omega)
  · have h1 : upC c = c := if_neg h
    rw [h1]
    exact h1

theorem isCased_loC (c : Nat) : isCased (loC c) = isCased c := by
  apply bool_eq_of_iff
  unfold isCased loC
  split <;> simp <;> omega

theorem isCased_upC (c : Nat) : isCased (upC c) = isCased c := by
  apply bool_eq_of_iff
  unfold isCased upC
  split <;> simp <;> omega

theorem isSpc_loC (c : Nat) : isSpc (loC c) = isSpc c := by
  apply bool_eq_of_iff
  unfold isSpc loC
  split <;> simp <;> omega

theorem isSpc_upC (c : Nat) : isSpc (upC c) = isSpc c := by
  apply bool_eq_of_iff
  unfold isSpc upC
  split <;> simp <;> omega

/-- Lower-casing erases the case changes made by title-casing. -/
theorem titleAux_lower (l : PyStr) : ∀ b, pyLower (titleAux b l) = pyLower l := by
  induction l with
  | nil => intro b; rfl
  | cons c t ih =>
    intro b
    simp only [titleAux, pyLower, List.map_cons]
    have ht := ih (isCased c)
    simp only [pyLower] at ht
    rw [ht]
    congr 1
    split
    · split
      · exact loC_loC c
      · exact loC_upC c
    · rfl

/-- Title-casing an already title-cased string changes nothing. -/
theorem titleAux_idem (l : PyStr) : ∀ b, titleAux b (titleAux b l) = titleAux b l := by
  induction l with
  | nil => intro b; rfl
  | cons c t ih =>
    intro b
    by_cases hc : isCased c = true
    · cases b <;>
        simp [titleAux, hc, isCased_loC, isCased_upC, loC_loC, upC_upC, ih]
    · simp [titleAux, hc, ih]

/-- Title-casing preserves where the whitespace is. -/
theorem titleAux_spc (l : PyStr) : ∀ b, (titleAux b l).map isSpc = l.map isSpc := by
  induction l with
  | nil => intro b; rfl
  | cons c t ih =>
    intro b
    simp only [titleAux, List.map_cons]
    rw [ih (isCased c)]
    congr 1
    split
    · split
      · exact isSpc_loC c
      · exact isSpc_upC c
    · rfl

theorem titleAux_nil_iff (b : Bool) (l : PyStr) : titleAux b l = [] ↔ l = [] := by
  cases l <;> simp [titleAux]

theorem pyLower_title (s : PyStr) : pyLower (pyTitle s) = pyLower s :=
  titleAux_lower s false

theorem pyTitle_idem (s : PyStr) : pyTitle (pyTitle s) = pyTitle s :=
  titleAux_idem s false

/-- Dropping a prefix is idempotent. -/
theorem dropWhile_idem (p : Nat → Bool) (l : PyStr) :
    List.dropWhile p (List.dropWhile p l) = List.dropWhile p l := by
  induction l with
  | nil => rfl
  | cons c t ih =>
    rw [List.dropWhile_cons]
    split
    · exact ih
    · rename_i hpc
      rw [List.dropWhile_cons, if_neg hpc]

/-- `dropWhile` returns a suffix. -/
theorem dropWhile_suffix_ex (p : Nat → Bool) (l : PyStr) :
    ∃ u, l = u ++ l.dropWhile p := by
  induction l with
  | nil => exact ⟨[], rfl⟩
  | cons c t ih =>
    by_cases hpc : p c = true
    · obtain ⟨u, hu⟩ := ih
      refine ⟨c :: u, ?_⟩
      rw [List.dropWhile_cons, if_pos hpc, List.cons_append, ← hu]
    · refine ⟨[], ?_⟩
      rw [List.dropWhile_cons, if_neg hpc, List.nil_append]

theorem head_false_of_dropWhile_self (p : Nat → Bool) (c : Nat) (t : PyStr)
    (h : List.dropWhile p (c :: t) = c :: t) : p c = false := by
  cases hpc : p c with
  | false => rfl
  | true =>
    rw [List.dropWhile_cons, if_pos hpc] at h
    obtain ⟨u, hu⟩ := dropWhile_suffix_ex p t
    rw [h] at hu
    have hlen := congrArg List.length hu
    simp only [List.length_append, List.length_cons] at hlen
    omega

/-- If two strings have whitespace in the same places and one keeps its
head under `dropWhile`, so does the other. -/
theorem dropWhile_self_transfer (x y : PyStr) (hxy : x.map isSpc = y.map isSpc)
    (hy : y.dropWhile isSpc = y) : x.dropWhile isSpc = x := by
  cases x with
  | nil => rfl
  | cons c t =>
    cases y with
    | nil => simp at hxy
    | cons c' t' =>
      simp only [List.map_cons, List.cons.injEq] at hxy
      have hc' : isSpc c' = false := head_false_of_dropWhile_self isSpc c' t' hy
      have hc : isSpc c = false := hxy.1.trans hc'
      rw [List.dropWhile_cons, if_neg (by simp [hc])]

/-- Right-stripping returns a prefix. -/
theorem stripR_prefix (l : PyStr) : ∃ u, l = stripR l ++ u := by
  obtain ⟨u, hu⟩ := dropWhile_suffix_ex isSpc l.reverse
  refine ⟨u.reverse, ?_⟩
  have h2 := congrArg List.reverse hu
  simpa [stripR, List.reverse_append] using h2

theorem dropWhile_self_of_append (z u : PyStr)
    (h : List.dropWhile isSpc (z ++ u) = z ++ u) : List.dropWhile isSpc z = z := by
  cases z with
  | nil => rfl
  | cons c t =>
    have hc : isSpc c = false :=
      head_false_of_dropWhile_self isSpc c (t ++ u) (by simpa using h)
    rw [List.dropWhile_cons, if_neg (by simp [hc])]

theorem stripL_of_self (y : PyStr) (h : stripL y = y) : stripL (stripR y) = stripR y := by
  obtain ⟨u, hu⟩ := stripR_prefix y
  unfold stripL at h ⊢
  exact dropWhile_self_of_append (stripR y) u (by rw [← hu]; exact h)

/-- A stripped string has no leading whitespace. -/
theorem pyStrip_stripL (s : PyStr) : stripL (pyStrip s) = pyStrip s := by
  unfold pyStrip
  exact stripL_of_self (stripL s) (dropWhile_idem isSpc s)

/-- A stripped string has no trailing whitespace. -/
theorem pyStrip_stripR (s : PyStr) : stripR (pyStrip s) = pyStrip s := by
  show stripR (stripR (stripL s)) = stripR (stripL s)
  unfold stripR
  rw [List.reverse_reverse, dropWhile_idem]

/-- Title-casing a string with no leading whitespace leaves none. -/
theorem stripL_title (u : PyStr) (h : stripL u = u) : stripL (pyTitle u) = pyTitle u := by
  unfold stripL at h ⊢
  exact dropWhile_self_transfer (pyTitle u) u (titleAux_spc u false) h

/-- Title-casing a string with no trailing whitespace leaves none. -/
theorem stripR_title (u : PyStr) (h : stripR u = u) : stripR (pyTitle u) = pyTitle u := by
  unfold stripR at h ⊢
  have h' : u.reverse.dropWhile isSpc = u.reverse := by
    have h2 := congrArg List.reverse h
    simpa using h2
  have hx : (pyTitle u).reverse.map isSpc = u.reverse.map isSpc := by
    rw [List.map_reverse, List.map_reverse,
      show (pyTitle u).map isSpc = u.map isSpc from titleAux_spc u false]
  rw [dropWhile_self_transfer (pyTitle u).reverse u.reverse hx h', List.reverse_reverse]

/-- Title-casing a fully stripped string leaves it stripped. -/
theorem pyStrip_title (u : PyStr) (hL : stripL u = u) (hR : stripR u = u) :
    pyStrip (pyTitle u) = pyTitle u := by
  unfold pyStrip
  rw [stripL_title u hL, stripR_title u hR]

/-- Claim C8, counterexample: a whitespace-only input normalizes to the
(canonical fallback) empty string, which renormalizes to `None`, so the
idempotence equation fails there. -/
theorem c8_counterexample :
    normalize_formation (normalize_formation (some (strLit " ")))
      ≠ normalize_formation (some (strLit " ")) := by
  decide

/-- Claim C8, amended: on every input whose stripped form is non-empty
(hence on every non-empty canonical label) normalization is idempotent:
normalizing its own output returns it unchanged.  The whitespace-only
inputs, whose fallback output is the empty string, are the sole
exception. -/
theorem c8_normalize_idempotent (s : PyStr) (h : pyStrip s ≠ []) :
    normalize_formation (normalize_formation (some s)) = normalize_formation (some s) := by
  have hs : s ≠ [] := by
    intro he
    exact h (by rw [he]; rfl)
  by_cases h1 : (substr (strLit "trips") (pyLower (pyStrip s))
      && substr (strLit "right") (pyLower (pyStrip s))) = true
  · have e1 : normalize_formation (some s) = some (strLit "Trips Right") := by
      simp [normalize_formation, hs, h1]
    rw [e1]
    decide
  · have hf1 := Bool.not_eq_true _ |>.mp h1
    by_cases h2 : (substr (strLit "trips") (pyLower (pyStrip s))
        && substr (strLit "left") (pyLower (pyStrip s))) = true
    · have e1 : normalize_formation (some s) = some (strLit "Trips Left") := by
        simp [normalize_formation, hs, hf1, h2]
      rw [e1]
      decide
    · have hf2 := Bool.not_eq_true _ |>.mp h2
      by_cases h3 : substr (strLit "double") (pyLower (pyStrip s)) = true
      · have e1 : normalize_formation (some s) = some (strLit "Doubles") := by
          simp [normalize_formation, hs, hf1, hf2, h3]
        rw [e1]
        decide
      · have hf3 := Bool.not_eq_true _ |>.mp h3
        have e1 : normalize_formation (some s) = some (pyTitle (pyStrip s)) := by
          simp [normalize_formation, hs, hf1, hf2, hf3]
        rw [e1]
        have hne : pyTitle (pyStrip s) ≠ [] := by
          intro he
          exact h ((titleAux_nil_iff false (pyStrip s)).mp he)
        have hstr : pyStrip (pyTitle (pyStrip s)) = pyTitle (pyStrip s) :=
          pyStrip_title (pyStrip s) (pyStrip_stripL s) (pyStrip_stripR s)
        have hlow : pyLower (pyStrip (pyTitle (pyStrip s))) = pyLower (pyStrip s) := by
          rw [hstr]
          exact pyLower_title (pyStrip s)
        unfold normalize_formation
        dsimp only
        rw [if_neg hne, hstr, pyLower_title, hf1, hf2, hf3, pyTitle_idem]
        simp

/-- Claim C8, witness for the amended theorem at the fallback label. -/
theorem c8_normalize_idempotent_witness :
    pyStrip (strLit "i-form") ≠ [] ∧
    normalize_formation (normalize_formation (some (strLit "i-form")))
      = normalize_formation (some (strLit "i-form")) :=
  ⟨by decide, c8_normalize_idempotent (strLit "i-form") (by decide)⟩

end Tendalyze
